import Mathlib

/-!
Verification development for the Token-Background-Check risk engine.

The engine consists of three components, embedded here from their sources:
* `BundlerDetector` (src/bundler_detector.py) — groups transactions by slot
  and flags coordinated wallet bundles;
* `TraderAnalyzer` (src/trader_analyzer.py) — classifies each wallet as
  bot / wash trader / sybil / real;
* `RiskScorer` (src/risk_scorer.py) — folds all signals into a 0..100 score.

Conventions of the embedding:
* Python floats are modelled as exact rationals `ℚ`.
* Optional / possibly-absent dict fields are `Option` fields; a Python value
  that is absent OR `None` is `none`; the empty string is `some ""` so that
  Python truthiness (`if fp:`) can be modelled faithfully.
* A `tokenAmount` that is present but does not parse as a number
  (`float(amt)` raises) is `AmountVal.malformed`.
* Python exceptions are modelled with `Except String`; functions that cannot
  raise are pure.
* `round(x, 2)` is modelled exactly on the rational value of `x`
  (round half to even, Python's rounding mode).
-/

attribute [local semireducible] Rat.add Rat.mul Rat.inv Rat.sub Rat.ofScientific

/-- Python truthiness of an optional string field: truthy iff present and
non-empty (`None` and `""` are falsy). -/
def truthyStr : Option String → Bool
  | some s => decide (s ≠ "")
  | none => false

/-- Python `a or b` for two optional string fields: `b` whenever `a` is falsy. -/
def pyOrStr (a b : Option String) : Option String :=
  if truthyStr a then a else b

/-- A `tokenAmount` field value: numeric, or present but non-numeric
(in which case `float(amt)` raises and the amount is skipped). -/
inductive AmountVal
  | num (q : ℚ)
  | malformed
deriving DecidableEq

/-- One entry of a transaction's `tokenTransfers` list. -/
structure Transfer where
  mint : Option String
  tokenAmount : Option AmountVal
  fromUserAccount : Option String
  toUserAccount : Option String
deriving DecidableEq

/-- One transaction record. `fee_payer` is the snake-case fallback key used by
`txn.get("feePayer") or txn.get("fee_payer")` throughout the code. -/
structure Txn where
  feePayer : Option String
  fee_payer : Option String
  slot : Option Int
  timestamp : Option ℚ
  tokenTransfers : List Transfer
deriving DecidableEq

/-- `fp = txn.get("feePayer") or txn.get("fee_payer")` followed by the
`if fp:` truthiness guard: the effective fee payer of a transaction, `none`
when both keys are absent or falsy. -/
def effFeePayer (t : Txn) : Option String :=
  match pyOrStr t.feePayer t.fee_payer with
  | some s => if s = "" then none else some s
  | none => none

/-- Append `x` unless already present: models adding to a Python `set` / dict
key while recording first-insertion order. -/
def insertFresh {α : Type} [DecidableEq α] (acc : List α) (x : α) : List α :=
  if x ∈ acc then acc else acc ++ [x]

/-- Fold `insertFresh` of all items produced by `f` over a transaction list:
the distinct collected values in first-seen order. -/
def collectFresh {α : Type} [DecidableEq α] (f : Txn → List α) (l : List Txn) : List α :=
  l.foldl (fun acc t => (f t).foldl insertFresh acc) []

/-- A holder record (`address`, `percentage`). -/
structure Holder where
  address : String
  percentage : ℚ
deriving DecidableEq

/-- Round a rational to the nearest integer, ties to even: Python's `round`
on the exact value. -/
def roundHalfEven (q : ℚ) : ℤ :=
  if q - ⌊q⌋ < 1/2 then ⌊q⌋
  else if 1/2 < q - ⌊q⌋ then ⌊q⌋ + 1
  else if ⌊q⌋ % 2 = 0 then ⌊q⌋ else ⌊q⌋ + 1

/-- Python `round(x, 2)` on the exact rational value of `x`. -/
def round2 (q : ℚ) : ℚ := (roundHalfEven (q * 100) : ℚ) / 100

namespace BundlerDetector

def BUNDLE_MIN_SIZE : ℕ := 3
def SUSPICIOUS_MIN_SIZE : ℕ := 5
def EARLY_SLOT_WINDOW : ℕ := 10

/-- One detected bundle (`slot`, `wallets`, `size`, `txn_count`, `suspicious`). -/
structure Bundle where
  slot : Int
  wallets : List String
  size : ℕ
  txn_count : ℕ
  suspicious : Bool
deriving DecidableEq

/-- Output of `BundlerDetector.detect`. -/
structure BundleReport where
  total_bundles : ℕ
  bundle_groups : List Bundle
  suspicious_bundles : ℕ
  bundled_wallet_percentage : ℚ
deriving DecidableEq

/-- The keys of `_group_by_slot`: distinct slots of transactions whose `slot`
is present, in first-seen order (Python dicts preserve insertion order). -/
def slotKeys (txns : List Txn) : List Int :=
  collectFresh (fun t => t.slot.toList) txns

/-- The transactions grouped under slot `s` by `_group_by_slot`. -/
def slotTxns (txns : List Txn) (s : Int) : List Txn :=
  txns.filter (fun t => t.slot = some s)

/-- The distinct truthy fee payers of slot `s` (`wallets` set in
`_identify_bundles`), in first-seen order (Python iterates a set in
unspecified order; only membership and size are relied upon). -/
def slotWallets (txns : List Txn) (s : Int) : List String :=
  collectFresh (fun t => (effFeePayer t).toList) (slotTxns txns s)

/-- `_identify_bundles`: slots whose distinct wallet count reaches
`BUNDLE_MIN_SIZE` become bundles, sorted by size descending (stable). -/
def identifyBundles (txns : List Txn) : List Bundle :=
  let candidates := (slotKeys txns).filterMap (fun s =>
    let ws := slotWallets txns s
    if BUNDLE_MIN_SIZE ≤ ws.length then
      some { slot := s, wallets := ws, size := ws.length,
             txn_count := (slotTxns txns s).length, suspicious := false }
    else none)
  List.insertionSort (fun b₁ b₂ => b₂.size ≤ b₁.size) candidates

/-- `sorted(slot_groups.keys())[:EARLY_SLOT_WINDOW]`: the first 10 slot keys
in ascending numeric order, over all slots that produced a group. -/
def earlySlots (txns : List Txn) : List Int :=
  (List.insertionSort (fun a b => a ≤ b) (slotKeys txns)).take EARLY_SLOT_WINDOW

/-- `_is_suspicious_bundle`. -/
def isSuspiciousBundle (b : Bundle) (early : List Int) : Bool :=
  if SUSPICIOUS_MIN_SIZE ≤ b.size then true
  else if b.slot ∈ early then true
  else false

/-- The set of distinct truthy fee payers across all input transactions
(`all_fee_payers` in `detect`). -/
def allFeePayers (txns : List Txn) : List String :=
  collectFresh (fun t => (effFeePayer t).toList) txns

/-- `BundlerDetector.detect`. -/
def detect (transactions : List Txn) : BundleReport :=
  if transactions = [] then
    { total_bundles := 0, bundle_groups := [], suspicious_bundles := 0,
      bundled_wallet_percentage := 0 }
  else
    let bundles := (identifyBundles transactions).map
      (fun b => { b with suspicious := isSuspiciousBundle b (earlySlots transactions) })
    let suspicious_count := (bundles.filter (fun b => b.suspicious)).length
    let bundled_wallets := ((bundles.map Bundle.wallets).flatten).dedup
    let all_fee_payers := allFeePayers transactions
    let total_wallets : ℕ := if all_fee_payers.length = 0 then 1 else all_fee_payers.length
    let bundled_pct := round2 ((bundled_wallets.length : ℚ) / (total_wallets : ℚ) * 100)
    { total_bundles := bundles.length, bundle_groups := bundles,
      suspicious_bundles := suspicious_count,
      bundled_wallet_percentage := bundled_pct }

end BundlerDetector

namespace TraderAnalyzer

def BOT_MIN_TXNS : ℕ := 5
def BOT_AVG_INTERVAL_SECS : ℚ := 30
def WASH_WINDOW_SECS : ℚ := 3600
def WASH_MIN_CYCLES : ℕ := 2
def SYBIL_CLUSTER_SIZE : ℕ := 3

/-- The owned-transaction list of wallet `w`: the transactions whose effective
fee payer is `w`, in input order (the value `wallet_txns[w]` in `analyze`). -/
def walletTxns (txns : List Txn) (w : String) : List Txn :=
  txns.filter (fun t => effFeePayer t = some w)

/-- The truthy wallets a single transaction registers in `wallet_txns`:
its effective fee payer, then each transfer's `fromUserAccount` and
`toUserAccount` when truthy. -/
def txnWallets (t : Txn) : List String :=
  (effFeePayer t).toList ++
    t.tokenTransfers.flatMap (fun tr =>
      (match tr.fromUserAccount with
       | some a => if a = "" then [] else [a]
       | none => []) ++
      (match tr.toUserAccount with
       | some a => if a = "" then [] else [a]
       | none => []))

/-- The keys of `wallet_txns` in insertion order: all discovered wallets. -/
def discoveredWallets (txns : List Txn) : List String :=
  collectFresh txnWallets txns

/-- The wallet's timestamps with `None` dropped, sorted ascending (duplicates
kept — Python's `sorted` keeps multiplicity). -/
def sortedTimestamps (wtxns : List Txn) : List ℚ :=
  List.insertionSort (fun a b => a ≤ b) (wtxns.filterMap Txn.timestamp)

/-- Consecutive differences `timestamps[i+1] - timestamps[i]`. -/
def intervalsOf (ts : List ℚ) : List ℚ :=
  (ts.zip ts.tail).map (fun p => p.2 - p.1)

/-- `TraderAnalyzer._is_bot`. -/
def isBot (wtxns : List Txn) : Bool :=
  if wtxns.length ≤ BOT_MIN_TXNS then false
  else
    let timestamps := sortedTimestamps wtxns
    if timestamps.length < 2 then false
    else
      let intervals := intervalsOf timestamps
      decide (intervals.sum / (intervals.length : ℚ) < BOT_AVG_INTERVAL_SECS)

/-- A buy/sell event of `_is_wash_trader`'s per-mint timeline. -/
structure WashEvent where
  ts : ℚ
  dir : String
deriving DecidableEq

/-- The distinct truthy mints appearing in transfers of timestamped owned
transactions: the keys of the `events` dict, in insertion order. -/
def washMints (wtxns : List Txn) : List String :=
  collectFresh (fun t =>
    match t.timestamp with
    | none => []
    | some _ => t.tokenTransfers.flatMap (fun tr =>
        match tr.mint with
        | some m => if m = "" then [] else [m]
        | none => [])) wtxns

/-- `events[mint]`: the buy/sell events of one mint, in insertion order.
A transfer is a buy iff its `toUserAccount` is truthy. -/
def mintEvents (wtxns : List Txn) (mint : String) : List WashEvent :=
  wtxns.foldl (fun acc t =>
    match t.timestamp with
    | none => acc
    | some ts => acc ++ t.tokenTransfers.filterMap (fun tr =>
        match tr.mint with
        | some m =>
          if m = "" then none
          else if m = mint then
            some { ts := ts, dir := if truthyStr tr.toUserAccount then "buy" else "sell" }
          else none
        | none => none)) []

/-- `sorted(mint_events, key=lambda e: e["ts"])` (stable). -/
def sortedMintEvents (wtxns : List Txn) (mint : String) : List WashEvent :=
  List.insertionSort (fun e₁ e₂ => e₁.ts ≤ e₂.ts) (mintEvents wtxns mint)

/-- `TraderAnalyzer._count_buy_sell_cycles`: a buy overwrites the pending-buy
timestamp; a sell with a pending buy completes a cycle iff it falls within
`WASH_WINDOW_SECS`, clearing the pending buy; an out-of-window sell leaves
the pending buy dangling. -/
def countBuySellCycles (events : List WashEvent) : ℕ :=
  (events.foldl (fun (st : ℕ × Option ℚ) ev =>
    if ev.dir = "buy" then (st.1, some ev.ts)
    else if ev.dir = "sell" then
      match st.2 with
      | some bought_at =>
        if ev.ts - bought_at ≤ WASH_WINDOW_SECS then (st.1 + 1, none) else st
      | none => st
    else st) (0, none)).1

/-- `TraderAnalyzer._is_wash_trader`. -/
def isWashTrader (wtxns : List Txn) : Bool :=
  if wtxns.length < WASH_MIN_CYCLES * 2 then false
  else
    (washMints wtxns).any (fun mint =>
      WASH_MIN_CYCLES ≤ countBuySellCycles (sortedMintEvents wtxns mint))

/-- The slots of `_is_sybil`'s `slot_wallets` dict: slots carrying at least one
transaction with both a slot and a truthy fee payer, in insertion order. -/
def sybilSlots (txns : List Txn) : List Int :=
  collectFresh (fun t =>
    match t.slot, effFeePayer t with
    | some s, some _ => [s]
    | _, _ => []) txns

/-- `slot_wallets[s]`: the distinct fee payers of slot `s`, skipping
transactions without a slot or without a truthy fee payer. -/
def sybilSlotWallets (txns : List Txn) (s : Int) : List String :=
  collectFresh (fun t =>
    match t.slot, effFeePayer t with
    | some s', some fp => if s' = s then [fp] else []
    | _, _ => []) txns

/-- `float(amt)` on an optional `tokenAmount`: `none` when the field is
absent or fails to parse (in which case the code skips it). -/
def parsedAmount : Option AmountVal → Option ℚ
  | some (.num q) => some q
  | some .malformed => none
  | none => none

/-- `slot_amounts[s]`: every numeric transfer amount of slot `s`, taken only
from transactions that also have a truthy fee payer (the `continue` in
`_is_sybil` skips a transaction before its amounts are recorded). -/
def sybilSlotAmounts (txns : List Txn) (s : Int) : List ℚ :=
  txns.foldl (fun acc t =>
    match t.slot, effFeePayer t with
    | some s', some _ =>
      if s' = s then acc ++ t.tokenTransfers.filterMap (fun tr => parsedAmount tr.tokenAmount)
      else acc
    | _, _ => acc) []

/-- `others = wallets_in_slot - {wallet}` in `_is_sybil`: the other distinct
fee payers sharing slot `s`. -/
def sybilOthers (txns : List Txn) (s : Int) (wallet : String) : List String :=
  (sybilSlotWallets txns s).filter (fun x => x ≠ wallet)

/-- `TraderAnalyzer._is_sybil`. -/
def isSybil (txns : List Txn) (wallet : String) : Bool :=
  (sybilSlots txns).any (fun s =>
    if wallet ∉ sybilSlotWallets txns s then false
    else if (sybilOthers txns s wallet).length < SYBIL_CLUSTER_SIZE then false
    else if sybilSlotAmounts txns s ≠ [] ∧ 1 < (sybilSlotAmounts txns s).length then
      decide ((sybilSlotAmounts txns s).dedup.length ≤ max 1 ((sybilSlotAmounts txns s).length / 5))
    else false)

/-- One entry of `trader_details`. -/
structure TraderDetail where
  wallet : String
  label : String
  txn_count : ℕ
  is_bot : Bool
  is_wash_trader : Bool
  is_sybil : Bool
deriving DecidableEq

/-- Output of `TraderAnalyzer.analyze`. -/
structure ClassificationReport where
  total_wallets : ℕ
  real_traders : ℕ
  bots : ℕ
  wash_traders : ℕ
  sybil_wallets : ℕ
  trader_details : List TraderDetail
  bot_percentage : ℚ
deriving DecidableEq

/-- The per-wallet detail record built inside `analyze`'s main loop, with the
label precedence bot > wash_trader > sybil > real. -/
def mkDetail (txns : List Txn) (w : String) : TraderDetail :=
  let wt := walletTxns txns w
  let b := isBot wt
  let wsh := isWashTrader wt
  let syb := isSybil txns w
  let label := if b then "bot" else if wsh then "wash_trader" else if syb then "sybil" else "real"
  { wallet := w, label := label, txn_count := wt.length,
    is_bot := b, is_wash_trader := wsh, is_sybil := syb }

/-- `TraderAnalyzer.analyze` (the `holders` argument is accepted but unused,
as in the source). -/
def analyze (transactions : List Txn) (_holders : List Holder) : ClassificationReport :=
  if transactions = [] then
    { total_wallets := 0, real_traders := 0, bots := 0, wash_traders := 0,
      sybil_wallets := 0, trader_details := [], bot_percentage := 0 }
  else
    let all_wallets := discoveredWallets transactions
    let details := all_wallets.map (mkDetail transactions)
    let bots := (details.filter (fun d => d.label = "bot")).length
    let washs := (details.filter (fun d => d.label = "wash_trader")).length
    let sybs := (details.filter (fun d => d.label = "sybil")).length
    let reals := (details.filter (fun d => d.label = "real")).length
    let total : ℕ := if all_wallets.length = 0 then 1 else all_wallets.length
    let bot_pct := round2 (((bots : ℚ) / (total : ℚ)) * 100)
    { total_wallets := all_wallets.length, real_traders := reals, bots := bots,
      wash_traders := washs, sybil_wallets := sybs, trader_details := details,
      bot_percentage := bot_pct }

end TraderAnalyzer

/-- A JSON-like Python value, used for the opaque third-party (RugCheck)
report whose nested structure is not statically known. -/
inductive JVal
  | jnull
  | jbool (b : Bool)
  | jnum (q : ℚ)
  | jstr (s : String)
  | jarr (elems : List JVal)
  | jobj (fields : List (String × JVal))

/-- Python truthiness of a `JVal`. -/
def jTruthy : JVal → Bool
  | .jnull => false
  | .jbool b => b
  | .jnum q => decide (q ≠ 0)
  | .jstr s => decide (s ≠ "")
  | .jarr l => !l.isEmpty
  | .jobj f => !f.isEmpty

/-- Python `value.get(key, default)`: raises `AttributeError` when `value`
is not a dict. -/
def pyGet : JVal → String → JVal → Except String JVal
  | .jobj fields, key, dflt => .ok ((fields.lookup key).getD dflt)
  | _, _, _ => .error "AttributeError"

namespace RiskScorer

/-- One catalog entry of `RiskScorer._FACTORS`. -/
structure FactorDef where
  id : String
  points : ℕ
  description : String
deriving DecidableEq

/-- One triggered factor as recorded in the output (`name`, `points`,
`description`). -/
structure Factor where
  name : String
  points : ℕ
  description : String
deriving DecidableEq

/-- `RiskScorer._FACTORS`. -/
def FACTORS : List FactorDef :=
  [ { id := "mint_authority_not_revoked", points := 25,
      description := "Mint authority has NOT been revoked – developer can mint unlimited tokens" },
    { id := "freeze_authority_not_revoked", points := 20,
      description := "Freeze authority has NOT been revoked – developer can freeze holder wallets" },
    { id := "top10_concentration_high", points := 20,
      description := "Top 10 holders own >80% of supply – extreme concentration risk" },
    { id := "top10_concentration_medium", points := 10,
      description := "Top 10 holders own 50–80 % of supply – elevated concentration risk" },
    { id := "bundler_percentage_high", points := 15,
      description := "More than 30 % of wallets are bundled – likely coordinated launch" },
    { id := "bot_percentage_high", points := 10,
      description := "More than 50 % of active wallets appear to be bots" },
    { id := "no_liquidity_info", points := 10,
      description := "No liquidity pool information found – token may be illiquid" },
    { id := "rugcheck_high_risk", points := 20,
      description := "RugCheck.xyz flagged this token as high risk (score > 500)" } ]

/-- The token-metadata input of `score` (the `bool(...)` coercions of the
authority flags and the `float(...)` of `bot_percentage` already applied). -/
structure TokenData where
  mint_authority_revoked : Bool
  freeze_authority_revoked : Bool
  bot_percentage : ℚ
deriving DecidableEq

/-- Output of `RiskScorer.score`. -/
structure RiskReport where
  total_score : ℕ
  risk_level : String
  factors : List Factor
  mint_authority_revoked : Bool
  freeze_authority_revoked : Bool
  top10_concentration : ℚ
  liquidity_locked : Bool
  bot_percentage : ℚ
  bundled_wallet_percentage : ℚ
deriving DecidableEq

/-- `RiskScorer._top10_concentration`: sum of the `percentage` of the ten
holders with greatest percentage (stable descending sort, like Python's
`sorted(..., reverse=True)`), 0 for no holders. -/
def top10Concentration (holders : List Holder) : ℚ :=
  if holders = [] then 0
  else
    let top10 := (List.insertionSort (fun h₁ h₂ => h₂.percentage ≤ h₁.percentage) holders).take 10
    (top10.map Holder.percentage).sum

/-- `RiskScorer._has_liquidity`. The nested
`rugcheck_data.get("tokenMeta", rugcheck_data.get("token", {}))` yields a
value whose own `.get` raises `AttributeError` when that value is not a
dict (e.g. null). -/
def hasLiquidity (rugcheck_data : JVal) : Except String Bool :=
  if jTruthy rugcheck_data = false then .ok false
  else
    match pyGet rugcheck_data "markets" (.jarr []) with
    | .error e => .error e
    | .ok markets =>
      if jTruthy markets then .ok true
      else
        match pyGet rugcheck_data "token" (.jobj []) with
        | .error e => .error e
        | .ok tokenDflt =>
          match pyGet rugcheck_data "tokenMeta" tokenDflt with
          | .error e => .error e
          | .ok token_info =>
            match pyGet token_info "markets" .jnull with
            | .error e => .error e
            | .ok m =>
              match pyGet token_info "liquidity" .jnull with
              | .error e => .error e
              | .ok l => .ok (jTruthy m || jTruthy l)

/-- `rugcheck_score = rugcheck_data.get("score", 0) if rugcheck_data else 0`. -/
def rugcheckScoreVal (rugcheck_data : JVal) : Except String JVal :=
  if jTruthy rugcheck_data then pyGet rugcheck_data "score" (.jnum 0) else .ok (.jnum 0)

/-- Python `v > bound` for a scalar: numbers compare numerically, booleans as
0/1, anything else raises `TypeError`. -/
def pyNumGt (v : JVal) (bound : ℚ) : Except String Bool :=
  match v with
  | .jnum q => .ok (decide (q > bound))
  | .jbool b => .ok (decide ((if b then (1 : ℚ) else 0) > bound))
  | _ => .error "TypeError"

/-- `if rugcheck_score and rugcheck_score > 500`: the short-circuiting
truthiness test followed by the comparison. -/
def rugcheckHighRisk (rugcheck_data : JVal) : Except String Bool :=
  match rugcheckScoreVal rugcheck_data with
  | .error e => .error e
  | .ok sv => if jTruthy sv then pyNumGt sv 500 else .ok false

/-- The `_add` helper: look the factor up in the catalog, add its points and
append the triggered-factor record. -/
def addFactor (acc : ℕ × List Factor) (factor_id : String) : ℕ × List Factor :=
  match FACTORS.find? (fun f => f.id == factor_id) with
  | some f => (acc.1 + f.points,
      acc.2 ++ [{ name := factor_id, points := f.points, description := f.description }])
  | none => acc

/-- Run the condition/factor pairs in order, accumulating points and
triggered factors (the explicit-fold form of `score`'s `if ... _add(...)`
chain). -/
def applyFactors : ℕ × List Factor → List (Bool × String) → ℕ × List Factor
  | acc, [] => acc
  | acc, (c, fid) :: rest => applyFactors (if c then addFactor acc fid else acc) rest

/-- The factor ids in the order `score` evaluates them. -/
def factorOrder : List String :=
  [ "mint_authority_not_revoked", "freeze_authority_not_revoked",
    "top10_concentration_high", "top10_concentration_medium",
    "bundler_percentage_high", "bot_percentage_high",
    "no_liquidity_info", "rugcheck_high_risk" ]

/-- The eight trigger conditions in evaluation order. The concentration
`elif` makes the medium condition "more than 50 but not the high branch". -/
def condList (mint_revoked freeze_revoked : Bool) (top10_pct bundled_pct bot_pct : ℚ)
    (liquidity_locked rugcheck_trigger : Bool) : List Bool :=
  [ !mint_revoked, !freeze_revoked,
    decide (top10_pct > 80), !(decide (top10_pct > 80)) && decide (top10_pct > 50),
    decide (bundled_pct > 30), decide (bot_pct > 50),
    !liquidity_locked, rugcheck_trigger ]

/-- `bundled_pct = bundle_analysis.get("bundled_wallet_percentage", 0.0) if
bundle_analysis else 0.0`. -/
def bundledPctOf : Option BundlerDetector.BundleReport → ℚ
  | some b => b.bundled_wallet_percentage
  | none => 0

/-- `RiskScorer._get_risk_level`. -/
def getRiskLevel (score : ℕ) : String :=
  if score < 25 then "LOW"
  else if score < 50 then "MEDIUM"
  else if score < 75 then "HIGH"
  else "CRITICAL"

/-- `RiskScorer.score`. An exception from `_has_liquidity` or the rugcheck
comparison propagates to the caller, as in the source. -/
def score (token_data : TokenData) (holders : List Holder)
    (bundle_analysis : Option BundlerDetector.BundleReport) (rugcheck_data : JVal) :
    Except String RiskReport :=
  match hasLiquidity rugcheck_data with
  | .error e => .error e
  | .ok liquidity_locked =>
    match rugcheckHighRisk rugcheck_data with
    | .error e => .error e
    | .ok rugcheck_trigger =>
      let mint_revoked := token_data.mint_authority_revoked
      let freeze_revoked := token_data.freeze_authority_revoked
      let top10_pct := top10Concentration holders
      let bundled_pct := bundledPctOf bundle_analysis
      let bot_pct := token_data.bot_percentage
      let conds := condList mint_revoked freeze_revoked top10_pct bundled_pct bot_pct
        liquidity_locked rugcheck_trigger
      let acc := applyFactors (0, []) (conds.zip factorOrder)
      let total_score := min acc.1 100
      .ok { total_score := total_score,
            risk_level := getRiskLevel total_score,
            factors := acc.2,
            mint_authority_revoked := mint_revoked,
            freeze_authority_revoked := freeze_revoked,
            top10_concentration := round2 top10_pct,
            liquidity_locked := liquidity_locked,
            bot_percentage := bot_pct,
            bundled_wallet_percentage := bundled_pct }

end RiskScorer

/-! ### Specification-side predicates

These predicates restate classification rules in the words of the
specification, for comparison with the embedded code. -/

namespace TraderAnalyzer

/-- The bot rule as the specification words it: strictly more than
`BOT_MIN_TXNS` owned transactions, at least 2 DISTINCT non-missing
timestamps, and mean consecutive gap (timestamps sorted ascending) strictly
below `BOT_AVG_INTERVAL_SECS`. -/
abbrev botRuleClaimed (txns : List Txn) (w : String) : Prop :=
  let wt := walletTxns txns w
  let tss := sortedTimestamps wt
  BOT_MIN_TXNS < wt.length ∧ 2 ≤ tss.dedup.length ∧
    (intervalsOf tss).sum / ((intervalsOf tss).length : ℚ) < BOT_AVG_INTERVAL_SECS

/-- The bot rule with the distinctness requirement amended to what the code
implements: at least 2 non-missing timestamps counted WITH multiplicity. -/
abbrev botRuleAmended (txns : List Txn) (w : String) : Prop :=
  let wt := walletTxns txns w
  let tss := sortedTimestamps wt
  BOT_MIN_TXNS < wt.length ∧ 2 ≤ tss.length ∧
    (intervalsOf tss).sum / ((intervalsOf tss).length : ℚ) < BOT_AVG_INTERVAL_SECS

/-- Every numeric transfer amount recorded by ANY transaction of slot `s`,
including transactions without a truthy fee payer — the reading the
specification gives for the sybil amount pool. -/
def allSlotAmounts (txns : List Txn) (s : Int) : List ℚ :=
  txns.foldl (fun acc t =>
    if t.slot = some s then acc ++ t.tokenTransfers.filterMap (fun tr => parsedAmount tr.tokenAmount)
    else acc) []

/-- The sybil rule as the specification words it: some slot where the wallet
is a fee payer, with at least `SYBIL_CLUSTER_SIZE` other fee payers, whose
pool of numeric amounts over ALL transactions of the slot has at least 2
entries and at most `max 1 (count / 5)` distinct values. -/
abbrev sybilRuleClaimed (txns : List Txn) (w : String) : Prop :=
  ∃ s ∈ sybilSlots txns, w ∈ sybilSlotWallets txns s ∧
    SYBIL_CLUSTER_SIZE ≤ (sybilOthers txns s w).length ∧
    2 ≤ (allSlotAmounts txns s).length ∧
    (allSlotAmounts txns s).dedup.length ≤ max 1 ((allSlotAmounts txns s).length / 5)

/-- The sybil rule with the amount pool amended to what the code implements:
only transactions of the slot that also carry a truthy fee payer contribute
their amounts. -/
abbrev sybilRuleAmended (txns : List Txn) (w : String) : Prop :=
  ∃ s ∈ sybilSlots txns, w ∈ sybilSlotWallets txns s ∧
    SYBIL_CLUSTER_SIZE ≤ (sybilOthers txns s w).length ∧
    2 ≤ (sybilSlotAmounts txns s).length ∧
    (sybilSlotAmounts txns s).dedup.length ≤ max 1 ((sybilSlotAmounts txns s).length / 5)

/-- The wash-trader rule as specified: some single mint accumulates at least
`WASH_MIN_CYCLES` completed buy→sell cycles. -/
abbrev washRuleRhs (txns : List Txn) (w : String) : Prop :=
  ∃ mint ∈ washMints (walletTxns txns w),
    WASH_MIN_CYCLES ≤ countBuySellCycles (sortedMintEvents (walletTxns txns w) mint)

end TraderAnalyzer

/-! ### Concrete inputs used by counterexamples and witnesses -/

/-- Six owned transactions of wallet "w", all carrying the same timestamp. -/
def txnsBotDup : List Txn :=
  List.replicate 6 ⟨some "w", none, none, some 100, []⟩

/-- Ten owned transactions of wallet "w" spaced 5 seconds apart. -/
def txnsBot5s : List Txn :=
  (List.range 10).map (fun i => ⟨some "w", none, none, some (5 * (i : ℚ)), []⟩)

/-- Ten owned transactions of wallet "w" spaced 120 seconds apart. -/
def txnsBot120s : List Txn :=
  (List.range 10).map (fun i => ⟨some "w", none, none, some (120 * (i : ℚ)), []⟩)

/-- Two in-window buy→sell round trips of wallet "w" on mint "m". -/
def txnsWash : List Txn :=
  [ ⟨some "w", none, none, some 0, [⟨some "m", some (.num 1), some "", some "w"⟩]⟩,
    ⟨some "w", none, none, some 600, [⟨some "m", some (.num 1), some "w", some ""⟩]⟩,
    ⟨some "w", none, none, some 1200, [⟨some "m", some (.num 1), some "", some "w"⟩]⟩,
    ⟨some "w", none, none, some 1800, [⟨some "m", some (.num 1), some "w", some ""⟩]⟩ ]

/-- Slot 1 holds fee payers W, A, B, C; the amounts recorded by fee-payer
transactions are 5 and 5, but a fifth transaction WITHOUT a fee payer
records the differing amount 7 in the same slot. -/
def txnsSybilCex : List Txn :=
  [ ⟨some "W", none, some 1, none, [⟨some "m", some (.num 5), none, some "W"⟩]⟩,
    ⟨some "A", none, some 1, none, [⟨some "m", some (.num 5), none, some "A"⟩]⟩,
    ⟨some "B", none, some 1, none, []⟩,
    ⟨some "C", none, some 1, none, []⟩,
    ⟨none, none, some 1, none, [⟨some "m", some (.num 7), none, none⟩]⟩ ]

/-- Four wallets sharing slot 1, each transferring the identical amount 5. -/
def txnsSybilPos : List Txn :=
  [ ⟨some "W", none, some 1, none, [⟨some "m", some (.num 5), none, some "W"⟩]⟩,
    ⟨some "A", none, some 1, none, [⟨some "m", some (.num 5), none, some "A"⟩]⟩,
    ⟨some "B", none, some 1, none, [⟨some "m", some (.num 5), none, some "B"⟩]⟩,
    ⟨some "C", none, some 1, none, [⟨some "m", some (.num 5), none, some "C"⟩]⟩ ]

/-- Four distinct wallets, all fee payers in slot 500. -/
def txnsBundle4 : List Txn :=
  [ ⟨some "a", none, some 500, some 1, []⟩,
    ⟨some "b", none, some 500, some 1, []⟩,
    ⟨some "c", none, some 500, some 1, []⟩,
    ⟨some "d", none, some 500, some 1, []⟩ ]

/-- A single transaction: one fee payer, no bundle. -/
def txnsSingle : List Txn :=
  [ ⟨some "a", none, some 500, some 1, []⟩ ]

/-- A rugcheck report whose `tokenMeta` key is present but null: its `.get`
raises `AttributeError` in `_has_liquidity`. -/
def rdNullTokenMeta : JVal := .jobj [("tokenMeta", .jnull)]

/-- A rugcheck report with a non-empty markets list and a low score. -/
def rdMarkets : JVal := .jobj [("markets", .jarr [.jnull]), ("score", .jnum 100)]

namespace RiskScorer

/-- The catalog points of a factor id (0 when the id is not in the catalog). -/
def ptsOf (factor_id : String) : ℕ :=
  match FACTORS.find? (fun f => f.id == factor_id) with
  | some f => f.points
  | none => 0

end RiskScorer

/-- Concrete output of `score` on a safe token with an empty rugcheck report:
only `no_liquidity_info` fires. -/
def rC1 : RiskScorer.RiskReport :=
  { total_score := 10, risk_level := "LOW",
    factors := [{ name := "no_liquidity_info", points := 10,
                  description := "No liquidity pool information found – token may be illiquid" }],
    mint_authority_revoked := true, freeze_authority_revoked := true,
    top10_concentration := 0, liquidity_locked := false,
    bot_percentage := 0, bundled_wallet_percentage := 0 }

/-- Output of `score` on a safe token with liquidity evidence: nothing fires. -/
def rC9a : RiskScorer.RiskReport :=
  { total_score := 0, risk_level := "LOW", factors := [],
    mint_authority_revoked := true, freeze_authority_revoked := true,
    top10_concentration := 0, liquidity_locked := true,
    bot_percentage := 0, bundled_wallet_percentage := 0 }

/-- Output of `score` on the same input except the mint authority is not
revoked: exactly one extra condition fires. -/
def rC9b : RiskScorer.RiskReport :=
  { total_score := 25, risk_level := "MEDIUM",
    factors := [{ name := "mint_authority_not_revoked", points := 25,
                  description := "Mint authority has NOT been revoked – developer can mint unlimited tokens" }],
    mint_authority_revoked := false, freeze_authority_revoked := true,
    top10_concentration := 0, liquidity_locked := true,
    bot_percentage := 0, bundled_wallet_percentage := 0 }

/-- The bundle `detect` finds in `txnsBundle4`. -/
def bundleW : BundlerDetector.Bundle :=
  { slot := 500, wallets := ["a", "b", "c", "d"], size := 4, txn_count := 4,
    suspicious := true }

namespace BundlerDetector

/-- The count of distinct wallets appearing in any bundle of `detect`'s
output. -/
def bundledWalletCount (txns : List Txn) : ℕ :=
  ((((detect txns).bundle_groups.map Bundle.wallets).flatten).dedup).length

/-- The count of distinct effective `feePayer` values across all input
transactions. -/
def distinctFeePayerTotal (txns : List Txn) : ℕ :=
  (allFeePayers txns).length

end BundlerDetector

/-- The detail record `analyze` produces for the 5s-spaced wallet. -/
def dBot5 : TraderAnalyzer.TraderDetail :=
  { wallet := "w", label := "bot", txn_count := 10,
    is_bot := true, is_wash_trader := false, is_sybil := false }

/-- The detail record `analyze` produces for the wash-trading wallet. -/
def dWash : TraderAnalyzer.TraderDetail :=
  { wallet := "w", label := "wash_trader", txn_count := 4,
    is_bot := false, is_wash_trader := true, is_sybil := false }

/-- The detail record `analyze` produces for wallet W of `txnsSybilPos`. -/
def dSybil : TraderAnalyzer.TraderDetail :=
  { wallet := "W", label := "sybil", txn_count := 1,
    is_bot := false, is_wash_trader := false, is_sybil := true }

/-! ## Supporting lemmas -/

theorem mem_insertFresh {α : Type} [DecidableEq α] (acc : List α) (x y : α) :
    y ∈ insertFresh acc x ↔ y ∈ acc ∨ y = x := by
  unfold insertFresh
  split
  · rename_i hx
    constructor
    · exact fun h => Or.inl h
    · rintro (h | rfl)
      · exact h
      · exact hx
  · simp [List.mem_append]

theorem mem_foldl_insertFresh {α : Type} [DecidableEq α] :
    ∀ (ys : List α) (acc : List α) (x : α),
      x ∈ ys.foldl insertFresh acc ↔ x ∈ acc ∨ x ∈ ys := by
  intro ys
  induction ys with
  | nil => intro acc x; simp
  | cons y ys ih =>
    intro acc x
    simp only [List.foldl_cons, ih, mem_insertFresh, List.mem_cons]
    tauto

theorem mem_collectFresh {α : Type} [DecidableEq α] (f : Txn → List α) :
    ∀ (l : List Txn) (x : α), x ∈ collectFresh f l ↔ ∃ t ∈ l, x ∈ f t := by
  have key : ∀ (l : List Txn) (acc : List α) (x : α),
      x ∈ l.foldl (fun acc t => (f t).foldl insertFresh acc) acc ↔
        x ∈ acc ∨ ∃ t ∈ l, x ∈ f t := by
    intro l
    induction l with
    | nil => intro acc x; simp
    | cons t l ih =>
      intro acc x
      simp only [List.foldl_cons, ih, mem_foldl_insertFresh, List.mem_cons]
      constructor
      · rintro ((h | h) | ⟨u, hu, hx⟩)
        · exact Or.inl h
        · exact Or.inr ⟨t, Or.inl rfl, h⟩
        · exact Or.inr ⟨u, Or.inr hu, hx⟩
      · rintro (h | ⟨u, (rfl | hu), hx⟩)
        · exact Or.inl (Or.inl h)
        · exact Or.inl (Or.inr hx)
        · exact Or.inr ⟨u, hu, hx⟩
  intro l x
  simpa using key l [] x

theorem roundHalfEven_nonneg (q : ℚ) (hq : 0 ≤ q) : 0 ≤ roundHalfEven q := by
  unfold roundHalfEven
  have hf : (0:ℤ) ≤ ⌊q⌋ := Int.floor_nonneg.mpr hq
  split_ifs <;> omega

theorem roundHalfEven_le (q : ℚ) (n : ℤ) (h : q ≤ (n:ℚ)) : roundHalfEven q ≤ n := by
  unfold roundHalfEven
  have hfn : ⌊q⌋ ≤ n := by
    calc ⌊q⌋ ≤ ⌊(n:ℚ)⌋ := Int.floor_le_floor h
    _ = n := Int.floor_intCast n
  split_ifs with h1 h2 h3
  · exact hfn
  · have hlt : ((⌊q⌋:ℤ):ℚ) < (n:ℚ) := by linarith
    have : ⌊q⌋ < n := by exact_mod_cast hlt
    omega
  · exact hfn
  · have hr : q - (⌊q⌋:ℚ) = 1/2 := le_antisymm (not_lt.mp h2) (not_lt.mp h1)
    have hlt : ((⌊q⌋:ℤ):ℚ) < (n:ℚ) := by linarith
    have : ⌊q⌋ < n := by exact_mod_cast hlt
    omega

theorem round2_nonneg (q : ℚ) (h : 0 ≤ q) : 0 ≤ round2 q := by
  unfold round2
  have h1 : (0:ℤ) ≤ roundHalfEven (q * 100) := roundHalfEven_nonneg _ (by positivity)
  have h2 : (0:ℚ) ≤ (roundHalfEven (q * 100) : ℚ) := by exact_mod_cast h1
  positivity

theorem round2_le_100 (q : ℚ) (h : q ≤ 100) : round2 q ≤ 100 := by
  unfold round2
  have h1 : roundHalfEven (q * 100) ≤ (10000 : ℤ) := by
    apply roundHalfEven_le
    push_cast
    linarith
  rw [div_le_iff₀ (by norm_num : (0:ℚ) < 100)]
  have h2 : ((roundHalfEven (q * 100) : ℤ) : ℚ) ≤ ((10000 : ℤ) : ℚ) := by exact_mod_cast h1
  push_cast at h2 ⊢
  linarith

theorem round2_zero : round2 0 = 0 := by
  norm_num [round2, roundHalfEven]

namespace RiskScorer

theorem addFactor_fst (acc : ℕ × List Factor) (fid : String) :
    (addFactor acc fid).1 = acc.1 + ptsOf fid := by
  unfold addFactor ptsOf
  cases h : FACTORS.find? (fun f => f.id == fid) <;> simp [h]

theorem addFactor_points_sum (acc : ℕ × List Factor) (fid : String) :
    ((addFactor acc fid).2.map Factor.points).sum = (acc.2.map Factor.points).sum + ptsOf fid := by
  unfold addFactor ptsOf
  cases h : FACTORS.find? (fun f => f.id == fid) <;> simp [h]

theorem applyFactors_inv :
    ∀ (l : List (Bool × String)) (acc : ℕ × List Factor),
      acc.1 = (acc.2.map Factor.points).sum →
      (applyFactors acc l).1 = ((applyFactors acc l).2.map Factor.points).sum := by
  intro l
  induction l with
  | nil => intro acc h; exact h
  | cons p rest ih =>
    intro acc h
    obtain ⟨c, fid⟩ := p
    cases c with
    | false => exact ih acc h
    | true =>
      show (applyFactors (addFactor acc fid) rest).1 = _
      apply ih
      rw [addFactor_fst, addFactor_points_sum, h]

theorem applyFactors_fst_mono :
    ∀ (c₁ : List Bool) (ids : List String) (c₂ : List Bool) (acc₁ acc₂ : ℕ × List Factor),
      c₁.length = c₂.length →
      (∀ i, c₁.getD i false = true → c₂.getD i false = true) →
      acc₁.1 ≤ acc₂.1 →
      (applyFactors acc₁ (c₁.zip ids)).1 ≤ (applyFactors acc₂ (c₂.zip ids)).1 := by
  intro c₁
  induction c₁ with
  | nil =>
    intro ids c₂ acc₁ acc₂ hlen _ hacc
    have : c₂ = [] := List.eq_nil_of_length_eq_zero hlen.symm
    subst this
    simpa [applyFactors] using hacc
  | cons b₁ t₁ ih =>
    intro ids c₂ acc₁ acc₂ hlen hpt hacc
    cases c₂ with
    | nil => simp at hlen
    | cons b₂ t₂ =>
      cases ids with
      | nil => simpa [applyFactors] using hacc
      | cons id rest =>
        show (applyFactors (if b₁ then addFactor acc₁ id else acc₁) (t₁.zip rest)).1 ≤
          (applyFactors (if b₂ then addFactor acc₂ id else acc₂) (t₂.zip rest)).1
        apply ih rest t₂ _ _ (by simpa using hlen)
          (fun i h => by simpa using hpt (i + 1) (by simpa using h))
        cases b₁ with
        | false =>
          cases b₂ with
          | false => exact hacc
          | true =>
            show acc₁.1 ≤ (addFactor acc₂ id).1
            rw [addFactor_fst]
            omega
        | true =>
          have hb₂ : b₂ = true := by simpa using hpt 0 (by simp)
          subst hb₂
          show (addFactor acc₁ id).1 ≤ (addFactor acc₂ id).1
          rw [addFactor_fst, addFactor_fst]
          omega

end RiskScorer

/-! ## Claim theorems -/

open RiskScorer in
/-- Claim C1: for every combination of token metadata, holders, bundle report
and third-party report, `RiskScorer.score` returns
`total_score = min(sum of the points of the triggered factors, 100)`, so
`total_score` is always in [0,100] regardless of how many factors fire. -/
theorem scoreTotalIsCappedFactorSum
    (td : RiskScorer.TokenData) (holders : List Holder)
    (ba : Option BundlerDetector.BundleReport) (rd : JVal)
    (r : RiskScorer.RiskReport)
    (h : RiskScorer.score td holders ba rd = .ok r) :
    r.total_score = min ((r.factors.map RiskScorer.Factor.points).sum) 100 ∧
      r.total_score ≤ 100 := by
  unfold RiskScorer.score at h
  cases hl : hasLiquidity rd with
  | error e => rw [hl] at h; simp at h
  | ok liq =>
    rw [hl] at h
    cases hr : rugcheckHighRisk rd with
    | error e => rw [hr] at h; simp at h
    | ok rt =>
      rw [hr] at h
      simp only [Except.ok.injEq] at h
      subst h
      refine ⟨?_, Nat.min_le_right _ _⟩
      show min _ 100 = min _ 100
      congr 1
      exact applyFactors_inv _ _ (by simp)

/-- Witness for C1 at a concrete input. -/
theorem scoreTotalIsCappedFactorSum_witness :
    rC1.total_score = min ((rC1.factors.map RiskScorer.Factor.points).sum) 100 ∧
      rC1.total_score ≤ 100 :=
  scoreTotalIsCappedFactorSum ⟨true, true, 0⟩ [] none .jnull rC1 (by rfl)

/-- Claim C3 (refuted — code bug): `_has_liquidity` calls `.get` on
`rugcheck_data.get("tokenMeta", ...)` without checking that the value is a
dict; a report whose `tokenMeta` is null makes `score` raise
`AttributeError` instead of resolving to "no liquidity evidence". -/
theorem scoreRaisesOnNullTokenMeta :
    RiskScorer.hasLiquidity rdNullTokenMeta = .error "AttributeError" ∧
    RiskScorer.score ⟨true, true, 0⟩ [] none rdNullTokenMeta = .error "AttributeError" :=
  ⟨rfl, rfl⟩

open RiskScorer in
/-- Claim C4: `_get_risk_level` maps score < 25 to LOW, 25 ≤ score < 50 to
MEDIUM, 50 ≤ score < 75 to HIGH and 75 ≤ score to CRITICAL (each boundary
belongs to the higher tier), and `score` labels its result with
`_get_risk_level` of its total score. -/
theorem riskLevelBoundaries :
    (∀ n : ℕ,
      (getRiskLevel n = "LOW" ↔ n < 25) ∧
      (getRiskLevel n = "MEDIUM" ↔ 25 ≤ n ∧ n < 50) ∧
      (getRiskLevel n = "HIGH" ↔ 50 ≤ n ∧ n < 75) ∧
      (getRiskLevel n = "CRITICAL" ↔ 75 ≤ n)) ∧
    (∀ (td : TokenData) (holders : List Holder)
       (ba : Option BundlerDetector.BundleReport) (rd : JVal) (r : RiskReport),
      score td holders ba rd = .ok r → r.risk_level = getRiskLevel r.total_score) := by
  constructor
  · intro n
    unfold getRiskLevel
    split_ifs with h1 h2 h3 <;> refine ⟨?_, ?_, ?_, ?_⟩ <;> simp <;> omega
  · intro td holders ba rd r h
    unfold score at h
    cases hl : hasLiquidity rd with
    | error e => rw [hl] at h; simp at h
    | ok liq =>
      rw [hl] at h
      cases hr : rugcheckHighRisk rd with
      | error e => rw [hr] at h; simp at h
      | ok rt =>
        rw [hr] at h
        simp only [Except.ok.injEq] at h
        subst h
        rfl

/-- Witness for C4's `score` conjunct at a concrete input. -/
theorem riskLevelBoundaries_witness :
    rC1.risk_level = RiskScorer.getRiskLevel rC1.total_score :=
  riskLevelBoundaries.2 ⟨true, true, 0⟩ [] none .jnull rC1 (by rfl)

open RiskScorer in
/-- Claim C9: `score` is monotone in the triggering conditions — when two
inputs produce the same eight trigger conditions except that exactly one
additional condition holds in the second, the second total score is at
least the first. -/
theorem scoreMonotoneInSingleCondition
    (td₁ td₂ : TokenData) (h₁ h₂ : List Holder)
    (ba₁ ba₂ : Option BundlerDetector.BundleReport) (rd₁ rd₂ : JVal)
    (liq₁ rug₁ liq₂ rug₂ : Bool) (r₁ r₂ : RiskReport) (j : ℕ)
    (hl₁ : hasLiquidity rd₁ = .ok liq₁) (hr₁ : rugcheckHighRisk rd₁ = .ok rug₁)
    (hl₂ : hasLiquidity rd₂ = .ok liq₂) (hr₂ : rugcheckHighRisk rd₂ = .ok rug₂)
    (hs₁ : score td₁ h₁ ba₁ rd₁ = .ok r₁) (hs₂ : score td₂ h₂ ba₂ rd₂ = .ok r₂)
    (hj : j < 8)
    (hoff : (condList td₁.mint_authority_revoked td₁.freeze_authority_revoked
        (top10Concentration h₁) (bundledPctOf ba₁) td₁.bot_percentage liq₁ rug₁).getD j false
        = false)
    (hon : (condList td₂.mint_authority_revoked td₂.freeze_authority_revoked
        (top10Concentration h₂) (bundledPctOf ba₂) td₂.bot_percentage liq₂ rug₂).getD j false
        = true)
    (hsame : ∀ i, i < 8 → i ≠ j →
      (condList td₁.mint_authority_revoked td₁.freeze_authority_revoked
        (top10Concentration h₁) (bundledPctOf ba₁) td₁.bot_percentage liq₁ rug₁).getD i false
      = (condList td₂.mint_authority_revoked td₂.freeze_authority_revoked
        (top10Concentration h₂) (bundledPctOf ba₂) td₂.bot_percentage liq₂ rug₂).getD i false) :
    r₁.total_score ≤ r₂.total_score := by
  set c₁ := condList td₁.mint_authority_revoked td₁.freeze_authority_revoked
    (top10Concentration h₁) (bundledPctOf ba₁) td₁.bot_percentage liq₁ rug₁ with hc₁
  set c₂ := condList td₂.mint_authority_revoked td₂.freeze_authority_revoked
    (top10Concentration h₂) (bundledPctOf ba₂) td₂.bot_percentage liq₂ rug₂ with hc₂
  have hlen₁ : c₁.length = 8 := by rw [hc₁]; rfl
  have hlen₂ : c₂.length = 8 := by rw [hc₂]; rfl
  -- extract the total scores
  unfold score at hs₁ hs₂
  rw [hl₁] at hs₁
  rw [hr₁] at hs₁
  rw [hl₂] at hs₂
  rw [hr₂] at hs₂
  simp only [Except.ok.injEq] at hs₁ hs₂
  subst hs₁
  subst hs₂
  show min (applyFactors (0, []) (c₁.zip factorOrder)).1 100 ≤
    min (applyFactors (0, []) (c₂.zip factorOrder)).1 100
  have hpt : ∀ i, c₁.getD i false = true → c₂.getD i false = true := by
    intro i hi
    by_cases hlt : i < 8
    · by_cases hij : i = j
      · subst hij
        rw [hoff] at hi
        exact absurd hi (by simp)
      · rw [← hsame i hlt hij]
        exact hi
    · rw [List.getD_eq_default _ _ (by omega : c₁.length ≤ i)] at hi
      exact absurd hi (by simp)
  have := applyFactors_fst_mono c₁ factorOrder c₂ (0, []) (0, [])
    (by rw [hlen₁, hlen₂]) hpt le_rfl
  exact min_le_min this le_rfl

/-- Witness for C9 at a concrete input pair. -/
theorem scoreMonotoneInSingleCondition_witness :
    rC9a.total_score ≤ rC9b.total_score :=
  scoreMonotoneInSingleCondition ⟨true, true, 0⟩ ⟨false, true, 0⟩ [] [] none none
    rdMarkets rdMarkets true false true false rC9a rC9b 0
    (by rfl) (by rfl) (by rfl) (by rfl) (by rfl) (by rfl) (by omega)
    (by rfl) (by rfl) (by decide)

namespace BundlerDetector

theorem detect_bundle_groups (txns : List Txn) (hne : txns ≠ []) :
    (detect txns).bundle_groups = (identifyBundles txns).map
      (fun b => { b with suspicious := isSuspiciousBundle b (earlySlots txns) }) := by
  unfold detect
  rw [if_neg hne]

/-- Every wallet of every bundle is an effective fee payer of some input
transaction. -/
theorem bundle_wallet_mem_allFeePayers (txns : List Txn) (b : Bundle)
    (hb : b ∈ (detect txns).bundle_groups) (w : String) (hw : w ∈ b.wallets) :
    w ∈ allFeePayers txns := by
  by_cases hne : txns = []
  · subst hne
    simp [detect] at hb
  · rw [detect_bundle_groups txns hne] at hb
    obtain ⟨a, ha, rfl⟩ := List.mem_map.mp hb
    have ha' : a ∈ (slotKeys txns).filterMap (fun s =>
        let ws := slotWallets txns s
        if BUNDLE_MIN_SIZE ≤ ws.length then
          some { slot := s, wallets := ws, size := ws.length,
                 txn_count := (slotTxns txns s).length, suspicious := false }
        else none) :=
      (List.perm_insertionSort _ _).mem_iff.mp ha
    obtain ⟨s, _, hsa⟩ := List.mem_filterMap.mp ha'
    simp only at hsa
    split at hsa
    · cases hsa
      simp only at hw
      obtain ⟨t, ht, hft⟩ := (mem_collectFresh _ _ _).mp hw
      exact (mem_collectFresh _ _ _).mpr ⟨t, List.mem_filter.mp ht |>.1, hft⟩
    · cases hsa

end BundlerDetector

open BundlerDetector in
/-- Claim C5: every bundle returned by `detect` is marked suspicious iff its
distinct-wallet size is at least `SUSPICIOUS_MIN_SIZE`, or its slot is among
the first `EARLY_SLOT_WINDOW` slot keys in ascending numeric order over all
slots that produced at least one group. -/
theorem bundleSuspiciousIff (txns : List Txn) (b : Bundle)
    (hb : b ∈ (detect txns).bundle_groups) :
    b.suspicious = true ↔ (SUSPICIOUS_MIN_SIZE ≤ b.size ∨ b.slot ∈ earlySlots txns) := by
  by_cases hne : txns = []
  · subst hne
    simp [detect] at hb
  · rw [detect_bundle_groups txns hne] at hb
    obtain ⟨a, _, rfl⟩ := List.mem_map.mp hb
    show isSuspiciousBundle a (earlySlots txns) = true ↔ _
    unfold isSuspiciousBundle
    split_ifs with h1 h2
    · simp only [true_iff]
      exact Or.inl h1
    · simp only [true_iff]
      exact Or.inr h2
    · simp only [Bool.false_eq_true, false_iff]
      rintro (h | h)
      · exact h1 h
      · exact h2 h

set_option maxRecDepth 8000 in
/-- Witness for C5: the slot-500 bundle of four wallets is suspicious only
via the early-slot window. -/
theorem bundleSuspiciousIff_witness :
    bundleW.suspicious = true ↔
      (BundlerDetector.SUSPICIOUS_MIN_SIZE ≤ bundleW.size ∨
        bundleW.slot ∈ BundlerDetector.earlySlots txnsBundle4) :=
  bundleSuspiciousIff txnsBundle4 bundleW (by decide)

namespace BundlerDetector

theorem bundledWalletCount_le (txns : List Txn) :
    bundledWalletCount txns ≤ distinctFeePayerTotal txns := by
  unfold bundledWalletCount distinctFeePayerTotal
  have hsub : (((detect txns).bundle_groups.map Bundle.wallets).flatten) ⊆ allFeePayers txns := by
    intro w hw
    obtain ⟨ws, hws, hwmem⟩ := List.mem_flatten.mp hw
    obtain ⟨b, hbmem, rfl⟩ := List.mem_map.mp hws
    exact bundle_wallet_mem_allFeePayers txns b hbmem w hwmem
  calc ((((detect txns).bundle_groups.map Bundle.wallets).flatten).dedup).length
      = (((detect txns).bundle_groups.map Bundle.wallets).flatten).toFinset.card :=
        (List.card_toFinset _).symm
    _ ≤ (allFeePayers txns).toFinset.card :=
        Finset.card_le_card (fun x hx => List.mem_toFinset.mpr (hsub (List.mem_toFinset.mp hx)))
    _ = (allFeePayers txns).dedup.length := List.card_toFinset _
    _ ≤ (allFeePayers txns).length := (List.dedup_sublist _).length_le

end BundlerDetector

open BundlerDetector in
/-- Claim C8: `detect` returns `bundled_wallet_percentage` equal to the count
of distinct bundled wallets over the count of distinct `feePayer` values
(defaulting to 1 when there are none) times 100, rounded to 2 decimals;
the value lies in [0,100] and is 0 whenever no bundle exists. -/
theorem bundledPercentageSpec (txns : List Txn) :
    (detect txns).bundled_wallet_percentage
        = round2 ((bundledWalletCount txns : ℚ) /
            (((if distinctFeePayerTotal txns = 0 then 1 else distinctFeePayerTotal txns) : ℕ) : ℚ)
            * 100)
      ∧ 0 ≤ (detect txns).bundled_wallet_percentage
      ∧ (detect txns).bundled_wallet_percentage ≤ 100
      ∧ ((detect txns).bundle_groups = [] → (detect txns).bundled_wallet_percentage = 0) := by
  have hform : (detect txns).bundled_wallet_percentage
      = round2 ((bundledWalletCount txns : ℚ) /
          (((if distinctFeePayerTotal txns = 0 then 1 else distinctFeePayerTotal txns) : ℕ) : ℚ)
          * 100) := by
    by_cases hne : txns = []
    · subst hne
      decide
    · unfold bundledWalletCount distinctFeePayerTotal detect
      rw [if_neg hne]
  have hble := bundledWalletCount_le txns
  have hT1 : (1 : ℚ) ≤
      (((if distinctFeePayerTotal txns = 0 then 1 else distinctFeePayerTotal txns) : ℕ) : ℚ) := by
    have : 1 ≤ (if distinctFeePayerTotal txns = 0 then 1 else distinctFeePayerTotal txns) := by
      split <;> omega
    exact_mod_cast this
  have hx0 : 0 ≤ (bundledWalletCount txns : ℚ) /
      (((if distinctFeePayerTotal txns = 0 then 1 else distinctFeePayerTotal txns) : ℕ) : ℚ)
      * 100 := by positivity
  have hx100 : (bundledWalletCount txns : ℚ) /
      (((if distinctFeePayerTotal txns = 0 then 1 else distinctFeePayerTotal txns) : ℕ) : ℚ)
      * 100 ≤ 100 := by
    have hbT : (bundledWalletCount txns : ℚ) ≤
        (((if distinctFeePayerTotal txns = 0 then 1 else distinctFeePayerTotal txns) : ℕ) : ℚ) := by
      have : bundledWalletCount txns ≤
          (if distinctFeePayerTotal txns = 0 then 1 else distinctFeePayerTotal txns) := by
        split <;> omega
      exact_mod_cast this
    have hdiv : (bundledWalletCount txns : ℚ) /
        (((if distinctFeePayerTotal txns = 0 then 1 else distinctFeePayerTotal txns) : ℕ) : ℚ)
        ≤ 1 := (div_le_one (by linarith)).mpr hbT
    nlinarith
  refine ⟨hform, ?_, ?_, ?_⟩
  · rw [hform]
    exact round2_nonneg _ hx0
  · rw [hform]
    exact round2_le_100 _ hx100
  · intro hempty
    have hb0 : bundledWalletCount txns = 0 := by
      unfold bundledWalletCount
      rw [hempty]
      rfl
    rw [hform, hb0]
    rw [Nat.cast_zero, zero_div, zero_mul]
    exact round2_zero

/-- Witness for C8: a single transaction produces no bundle and percentage 0. -/
theorem bundledPercentageSpec_witness :
    (BundlerDetector.detect txnsSingle).bundled_wallet_percentage
        = round2 ((BundlerDetector.bundledWalletCount txnsSingle : ℚ) /
            (((if BundlerDetector.distinctFeePayerTotal txnsSingle = 0 then 1
               else BundlerDetector.distinctFeePayerTotal txnsSingle) : ℕ) : ℚ) * 100)
      ∧ (BundlerDetector.detect txnsSingle).bundled_wallet_percentage = 0 :=
  ⟨(bundledPercentageSpec txnsSingle).1,
   (bundledPercentageSpec txnsSingle).2.2.2 (by decide)⟩

namespace TraderAnalyzer

theorem analyze_details_eq (txns : List Txn) (holders : List Holder) (hne : txns ≠ []) :
    (analyze txns holders).trader_details = (discoveredWallets txns).map (mkDetail txns) := by
  unfold analyze
  rw [if_neg hne]

theorem mem_analyze_details (txns : List Txn) (holders : List Holder) (d : TraderDetail) :
    d ∈ (analyze txns holders).trader_details ↔
      ∃ w ∈ discoveredWallets txns, d = mkDetail txns w := by
  by_cases hne : txns = []
  · subst hne
    simp [analyze, discoveredWallets, collectFresh]
  · rw [analyze_details_eq txns holders hne, List.mem_map]
    constructor
    · rintro ⟨w, hw, rfl⟩
      exact ⟨w, hw, rfl⟩
    · rintro ⟨w, hw, rfl⟩
      exact ⟨w, hw, rfl⟩

theorem isBot_iff (wtxns : List Txn) :
    isBot wtxns = true ↔
      (BOT_MIN_TXNS < wtxns.length ∧ 2 ≤ (sortedTimestamps wtxns).length ∧
        (intervalsOf (sortedTimestamps wtxns)).sum /
          ((intervalsOf (sortedTimestamps wtxns)).length : ℚ) < BOT_AVG_INTERVAL_SECS) := by
  unfold isBot
  split_ifs with h1
  · simp only [Bool.false_eq_true, false_iff]
    rintro ⟨ha, -, -⟩
    omega
  · show (if (sortedTimestamps wtxns).length < 2 then false
        else decide ((intervalsOf (sortedTimestamps wtxns)).sum /
          ((intervalsOf (sortedTimestamps wtxns)).length : ℚ) < BOT_AVG_INTERVAL_SECS)) = true ↔ _
    split_ifs with h2
    · simp only [Bool.false_eq_true, false_iff]
      rintro ⟨-, hb, -⟩
      omega
    · simp only [decide_eq_true_eq]
      constructor
      · intro h
        exact ⟨by omega, by omega, h⟩
      · rintro ⟨-, -, h⟩
        exact h

end TraderAnalyzer

/-- Claim C2 (refuted at "distinct"): a wallet with six owned transactions
all carrying the SAME timestamp is flagged as a bot by the code (the length
check counts timestamps with multiplicity), while the claimed rule requires
at least 2 distinct timestamps and so does not flag it. -/
theorem botDistinctTimestampsCex :
    ((TraderAnalyzer.analyze txnsBotDup []).trader_details.any
        (fun d => d.wallet == "w" && d.is_bot)) = true
      ∧ ¬ TraderAnalyzer.botRuleClaimed txnsBotDup "w" := by
  constructor
  · decide
  · decide

open TraderAnalyzer in
/-- Claim C2 (amended): a discovered wallet is flagged as a bot iff it has
strictly more than `BOT_MIN_TXNS` owned transactions, at least 2 non-missing
timestamps counted WITH multiplicity, and mean consecutive gap below
`BOT_AVG_INTERVAL_SECS`; a wallet with 10 transactions spaced 5s apart is
flagged and one with 10 transactions spaced 120s apart is not. -/
theorem botRuleDetails :
    (∀ (txns : List Txn) (holders : List Holder) (w : String) (d : TraderDetail),
      d ∈ (analyze txns holders).trader_details → d.wallet = w →
      (d.is_bot = true ↔ botRuleAmended txns w))
    ∧ ((analyze txnsBot5s []).trader_details.any
        (fun d => d.wallet == "w" && d.is_bot)) = true
    ∧ ((analyze txnsBot120s []).trader_details.any (fun d => d.is_bot)) = false := by
  refine ⟨?_, by decide, by decide⟩
  intro txns holders w d hd hw
  obtain ⟨w', hw', rfl⟩ := (mem_analyze_details txns holders d).mp hd
  have hww : w' = w := hw
  subst hww
  show isBot (walletTxns txns w') = true ↔ _
  unfold botRuleAmended
  exact isBot_iff (walletTxns txns w')

/-- Witness for C2's amended rule at a concrete input. -/
theorem botRuleDetails_witness :
    dBot5.is_bot = true ↔ TraderAnalyzer.botRuleAmended txnsBot5s "w" :=
  botRuleDetails.1 txnsBot5s [] "w" dBot5 (by decide) (by rfl)

namespace TraderAnalyzer

theorem isWashTrader_iff (wtxns : List Txn) :
    isWashTrader wtxns = true ↔
      (WASH_MIN_CYCLES * 2 ≤ wtxns.length ∧
        ∃ mint ∈ washMints wtxns,
          WASH_MIN_CYCLES ≤ countBuySellCycles (sortedMintEvents wtxns mint)) := by
  unfold isWashTrader
  split_ifs with h1
  · simp only [Bool.false_eq_true, false_iff]
    rintro ⟨ha, -⟩
    omega
  · rw [List.any_eq_true]
    constructor
    · rintro ⟨mint, hm, hc⟩
      rw [decide_eq_true_eq] at hc
      exact ⟨by omega, mint, hm, hc⟩
    · rintro ⟨-, mint, hm, hc⟩
      exact ⟨mint, hm, decide_eq_true hc⟩

theorem isSybil_iff (txns : List Txn) (w : String) :
    isSybil txns w = true ↔ sybilRuleAmended txns w := by
  unfold isSybil sybilRuleAmended
  rw [List.any_eq_true]
  constructor
  · rintro ⟨s, hs, hbody⟩
    refine ⟨s, hs, ?_⟩
    revert hbody
    split_ifs with hw ho ha
    · exact fun h => h.elim
    · intro h
      rw [decide_eq_true_eq] at h
      exact ⟨hw, by omega, by omega, h⟩
    · exact fun h => h.elim
    · exact fun h => h.elim
  · rintro ⟨s, hs, hw, ho, hlen, hded⟩
    refine ⟨s, hs, ?_⟩
    rw [if_neg (not_not_intro hw), if_neg (by omega),
      if_pos ⟨List.length_pos.mp (by omega), by omega⟩]
    exact decide_eq_true hded

end TraderAnalyzer

open TraderAnalyzer in
/-- Claim C6: a discovered wallet with at least `2 * WASH_MIN_CYCLES` owned
transactions is flagged as a wash trader iff some single mint accumulates at
least `WASH_MIN_CYCLES` completed buy→sell cycles (buy overwrites the
pending buy, a sell completes a cycle iff within `WASH_WINDOW_SECS`,
clearing it); a wallet with fewer owned transactions is never flagged. -/
theorem washTraderRule :
    ∀ (txns : List Txn) (holders : List Holder) (w : String) (d : TraderDetail),
      d ∈ (analyze txns holders).trader_details → d.wallet = w →
      ((WASH_MIN_CYCLES * 2 ≤ d.txn_count →
          (d.is_wash_trader = true ↔ washRuleRhs txns w))
        ∧ (d.txn_count < WASH_MIN_CYCLES * 2 → d.is_wash_trader = false)) := by
  intro txns holders w d hd hw
  obtain ⟨w', hw', rfl⟩ := (mem_analyze_details txns holders d).mp hd
  have hww : w' = w := hw
  subst hww
  constructor
  · intro hlen
    show isWashTrader (walletTxns txns w') = true ↔ _
    rw [isWashTrader_iff]
    unfold washRuleRhs
    constructor
    · rintro ⟨-, h⟩
      exact h
    · intro h
      exact ⟨hlen, h⟩
  · intro hlen
    have hlen' : (walletTxns txns w').length < WASH_MIN_CYCLES * 2 := hlen
    show isWashTrader (walletTxns txns w') = false
    unfold isWashTrader
    rw [if_pos hlen']

/-- Witness for C6: two in-window buy→sell round trips on one mint flag the
wallet. -/
theorem washTraderRule_witness :
    dWash.is_wash_trader = true ↔ TraderAnalyzer.washRuleRhs txnsWash "w" :=
  (washTraderRule txnsWash [] "w" dWash (by decide) (by rfl)).1 (by decide)

/-- Claim C7 (refuted at the amount pool): in `txnsSybilCex`, wallet W shares
slot 1 with three other fee payers; the code's amount pool ignores the
fee-payer-less transaction carrying amount 7 and sees only [5, 5], so W is
flagged sybil — while the claimed rule pools every transaction of the slot,
sees [5, 5, 7] with 2 distinct values over the allowance max(1, 3 // 5) = 1,
and does not flag W. -/
theorem sybilAmountPoolCex :
    ((TraderAnalyzer.analyze txnsSybilCex []).trader_details.any
        (fun d => d.wallet == "W" && d.is_sybil)) = true
      ∧ ¬ TraderAnalyzer.sybilRuleClaimed txnsSybilCex "W" := by
  constructor
  · decide
  · decide

open TraderAnalyzer in
/-- Claim C7 (amended): a wallet is flagged sybil iff some slot where it is a
fee payer has at least `SYBIL_CLUSTER_SIZE` other distinct fee payers and the
numeric amounts recorded by the slot's transactions THAT HAVE a truthy fee
payer number at least 2 with at most max(1, count // 5) distinct values. -/
theorem sybilRuleDetails :
    ∀ (txns : List Txn) (holders : List Holder) (w : String) (d : TraderDetail),
      d ∈ (analyze txns holders).trader_details → d.wallet = w →
      (d.is_sybil = true ↔ sybilRuleAmended txns w) := by
  intro txns holders w d hd hw
  obtain ⟨w', hw', rfl⟩ := (mem_analyze_details txns holders d).mp hd
  have hww : w' = w := hw
  subst hww
  show isSybil txns w' = true ↔ _
  exact isSybil_iff txns w'

/-- Witness for C7's amended rule at a concrete input. -/
theorem sybilRuleDetails_witness :
    dSybil.is_sybil = true ↔ TraderAnalyzer.sybilRuleAmended txnsSybilPos "W" :=
  sybilRuleDetails txnsSybilPos [] "W" dSybil (by decide) (by rfl)

/-- Claim C10: both detectors treat `fee_payer` as an equivalent fallback for
`feePayer` (used whenever `feePayer` is absent or falsy), and treat an
empty-string fee payer as absent — such a transaction contributes no wallet
to any slot's bundle wallet set or sybil cluster, no entry to the distinct
fee-payer total behind `bundled_wallet_percentage`, and no owned transaction
to any wallet's classification history. -/
theorem feePayerFallbackSpec :
    (∀ (fp2 : Option String) (s : Option Int) (ts : Option ℚ) (trs : List Transfer),
        effFeePayer ⟨none, fp2, s, ts, trs⟩ = effFeePayer ⟨fp2, none, s, ts, trs⟩
      ∧ effFeePayer ⟨some "", fp2, s, ts, trs⟩ = effFeePayer ⟨fp2, none, s, ts, trs⟩)
    ∧ (∀ (txns : List Txn) (s : Int) (w : String),
        w ∈ BundlerDetector.slotWallets txns s ↔
          ∃ t ∈ txns, t.slot = some s ∧ effFeePayer t = some w)
    ∧ (∀ (txns : List Txn) (w : String),
        w ∈ BundlerDetector.allFeePayers txns ↔ ∃ t ∈ txns, effFeePayer t = some w)
    ∧ (∀ (txns : List Txn) (s : Int) (w : String),
        w ∈ TraderAnalyzer.sybilSlotWallets txns s ↔
          ∃ t ∈ txns, t.slot = some s ∧ effFeePayer t = some w)
    ∧ (∀ (txns : List Txn) (w : String) (t : Txn),
        t ∈ TraderAnalyzer.walletTxns txns w ↔ (t ∈ txns ∧ effFeePayer t = some w)) := by
  refine ⟨?_, ?_, ?_, ?_, ?_⟩
  · intro fp2 s ts trs
    constructor
    · cases fp2 with
      | none => rfl
      | some a =>
        by_cases ha : a = "" <;> simp [effFeePayer, pyOrStr, truthyStr, ha]
    · cases fp2 with
      | none => rfl
      | some a =>
        by_cases ha : a = "" <;> simp [effFeePayer, pyOrStr, truthyStr, ha]
  · intro txns s w
    rw [BundlerDetector.slotWallets, mem_collectFresh]
    constructor
    · rintro ⟨t, ht, hf⟩
      have hmem := List.mem_filter.mp ht
      refine ⟨t, hmem.1, by simpa using hmem.2, ?_⟩
      simpa using hf
    · rintro ⟨t, ht, hslot, heff⟩
      exact ⟨t, List.mem_filter.mpr ⟨ht, by simp [hslot]⟩, by simp [heff]⟩
  · intro txns w
    rw [BundlerDetector.allFeePayers, mem_collectFresh]
    constructor
    · rintro ⟨t, ht, hf⟩
      exact ⟨t, ht, by simpa using hf⟩
    · rintro ⟨t, ht, heff⟩
      exact ⟨t, ht, by simp [heff]⟩
  · intro txns s w
    rw [TraderAnalyzer.sybilSlotWallets, mem_collectFresh]
    constructor
    · rintro ⟨t, ht, hf⟩
      refine ⟨t, ht, ?_⟩
      revert hf
      rcases h1 : t.slot with - | s' <;> rcases h2 : effFeePayer t with - | fp <;> simp [h1, h2]
      exact fun hss hwfp => ⟨hss, hwfp.symm⟩
    · rintro ⟨t, ht, hslot, heff⟩
      refine ⟨t, ht, ?_⟩
      rw [hslot, heff]
      simp
  · intro txns w t
    simp [TraderAnalyzer.walletTxns, List.mem_filter]
